import Mathlib

set_option maxRecDepth 65536

/-!
Verification of the real-time hub and call-signaling core of the
yanda backend.  The WebSocket hub (package `websocket`, embedded in
`internal/config/config.go` after the first file separator) is modelled as a
state-transition system; the call handlers (`CallHandler` in the handlers
package) are modelled as pure functions from request data and collaborator
outcomes to an HTTP status, a database state, and an ordered effect trace.
-/

namespace YandasWS

/-- JSON-like values, used for envelope payloads (`interface{}` in Go). -/
inductive JVal where
  | null
  | bool (b : Bool)
  | num (n : Int)
  | str (s : String)
  | arr (xs : List JVal)
  | obj (fields : List (String × JVal))

/-- The `Message` struct of the websocket package: a type discriminator, an
optional target room (empty string = global broadcast), and a payload. -/
structure Message where
  msgType : String
  msgRoom : String
  payload : JVal

/-- Connections are identified abstractly; in Go each `*Client` pointer is a
distinct identity. -/
abbrev ClientId := Nat

/-- Capacity of each client's `Send` channel: `make(chan []byte, 256)`. -/
def sendCap : Nat := 256

/-- The hub's shared state plus the per-client connection state that the hub
manipulates (`Client.Rooms`, the `Send` queue).  `crashed` records that the
hub goroutine panicked (a send or close on an already-closed channel). -/
structure HubState where
  clients : List ClientId
  rooms : List (String × List ClientId)
  clientRooms : ClientId → List String
  queue : ClientId → List Message
  sendClosed : ClientId → Bool
  closeCount : ClientId → Nat
  crashed : Bool

/-- Association-list lookup of a room's member set (an absent key reads as
an empty room, as a Go map does). -/
def membersOf : List (String × List ClientId) → String → List ClientId
  | [], _ => []
  | (r', ms) :: rest, r => if r' = r then ms else membersOf rest r

/-- `h.rooms[r]` viewed as a list of members. -/
def roomMembers (s : HubState) (r : String) : List ClientId :=
  membersOf s.rooms r

/-- One delivery attempt inside `Hub.broadcastMessage`:
`select { case client.Send <- data: default: close(client.Send); delete(h.clients, client) }`.
A send on a closed channel panics; a full (open) channel takes the default
branch, which closes the channel and drops the client from the global set
(the rooms map is not touched). -/
def attemptSend (m : Message) (s : HubState) (c : ClientId) : HubState :=
  if s.crashed then s
  else if s.sendClosed c then { s with crashed := true }
  else if (s.queue c).length < sendCap then
    { s with queue := fun x => if x = c then s.queue c ++ [m] else s.queue x }
  else
    { s with
      sendClosed := fun x => if x = c then true else s.sendClosed x,
      closeCount := fun x => if x = c then s.closeCount x + 1 else s.closeCount x,
      clients := s.clients.erase c }

/-- `Hub.broadcastMessage`: fan out to the room's members when a target room
is set, otherwise to every client in the global set. -/
def broadcastMessage (m : Message) (s : HubState) : HubState :=
  if s.crashed then s
  else if m.msgRoom = "" then s.clients.foldl (attemptSend m) s
  else (roomMembers s m.msgRoom).foldl (attemptSend m) s

/-- The `register` case of `Hub.Run`: `h.clients[client] = true`. -/
def hubRegister (c : ClientId) (s : HubState) : HubState :=
  if s.crashed then s
  else { s with clients := if c ∈ s.clients then s.clients else s.clients ++ [c] }

/-- Insert client `c` into room `r` of the rooms map (created on first join). -/
def roomsInsert (rooms : List (String × List ClientId)) (r : String) (c : ClientId) :
    List (String × List ClientId) :=
  match rooms with
  | [] => [(r, [c])]
  | (r', ms) :: rest =>
    if r' = r then (r', if c ∈ ms then ms else ms ++ [c]) :: rest
    else (r', ms) :: roomsInsert rest r c

/-- `Hub.JoinRoom`: adds the client to the room's member set and records the
room in the client's own `Rooms` set. -/
def joinRoom (c : ClientId) (r : String) (s : HubState) : HubState :=
  if s.crashed then s
  else
    { s with
      rooms := roomsInsert s.rooms r c,
      clientRooms := fun x =>
        if x = c then
          (if r ∈ s.clientRooms c then s.clientRooms c else s.clientRooms c ++ [r])
        else s.clientRooms x }

/-- Remove client `c` from every room listed in `rs` (its `Rooms` set). -/
def removeFromRooms (c : ClientId) (rs : List String)
    (rooms : List (String × List ClientId)) : List (String × List ClientId) :=
  rooms.map (fun e => if e.1 ∈ rs then (e.1, e.2.erase c) else e)

/-- The `unregister` case of `Hub.Run`: guarded by membership in the global
client set; deletes the client, closes its send queue, and removes it from
each room recorded in `client.Rooms`. -/
def unregister (c : ClientId) (s : HubState) : HubState :=
  if s.crashed then s
  else if c ∈ s.clients then
    { s with
      clients := s.clients.erase c,
      sendClosed := fun x => if x = c then true else s.sendClosed x,
      closeCount := fun x => if x = c then s.closeCount x + 1 else s.closeCount x,
      rooms := removeFromRooms c (s.clientRooms c) s.rooms }
  else s

/-- The per-user mailbox room, `"user:" + userID`. -/
def userRoom (u : String) : String := "user:" ++ u

/-- The presence event broadcast by `readPump` once the connection starts. -/
def onlineMsg (u : String) : Message :=
  { msgType := "user_online", msgRoom := "", payload := .obj [("user_id", .str u)] }

/-- The presence event broadcast by `readPump`'s deferred cleanup. -/
def offlineMsg (u : String) : Message :=
  { msgType := "user_offline", msgRoom := "", payload := .obj [("user_id", .str u)] }

/-- The full registration flow of `HandleConnection` plus the start of
`readPump`: hub registration, auto-join of the per-user room, then the
`user_online` broadcast (processed by the hub after the registration). -/
def connect (userOf : ClientId → String) (c : ClientId) (s : HubState) : HubState :=
  broadcastMessage (onlineMsg (userOf c)) (joinRoom c (userRoom (userOf c)) (hubRegister c s))

/-- The teardown flow of `readPump`'s deferred function: unregister, then the
`user_offline` broadcast. -/
def disconnect (userOf : ClientId → String) (c : ClientId) (s : HubState) : HubState :=
  broadcastMessage (offlineMsg (userOf c)) (unregister c s)

/-- An inbound control frame after JSON decoding into the `Message` struct:
only the type discriminator and the payload are consulted by `readPump`. -/
structure InFrame where
  ftype : String
  fpayload : JVal

/-- `payload["conversation_id"].(string)` followed by the `convID != ""`
guard: the payload must be a JSON object whose `conversation_id` field is a
non-empty string. -/
def convIdOf (p : JVal) : Option String :=
  match p with
  | .obj fields =>
    match fields.lookup "conversation_id" with
    | some (.str s) => if s = "" then none else some s
    | _ => none
  | _ => none

/-- `payload["is_typing"]` (a missing key reads as JSON null / Go nil). -/
def isTypingOf (p : JVal) : JVal :=
  match p with
  | .obj fields =>
    match fields.lookup "is_typing" with
    | some v => v
    | none => .null
  | _ => .null

/-- The reply to a client-level `ping`: `Message{Type: "pong"}`. -/
def pongMsg : Message := { msgType := "pong", msgRoom := "", payload := .null }

/-- The typing event re-broadcast by `readPump` to `"conv:" + convID`. -/
def typingMsg (convID u : String) (isTyping : JVal) : Message :=
  { msgType := "typing", msgRoom := "conv:" ++ convID,
    payload := .obj [("conversation_id", .str convID), ("user_id", .str u),
                     ("is_typing", isTyping)] }

/-- The read receipt re-broadcast by `readPump` to `"conv:" + convID`. -/
def readMsg (convID u : String) : Message :=
  { msgType := "read", msgRoom := "conv:" ++ convID,
    payload := .obj [("conversation_id", .str convID), ("reader_id", .str u)] }

/-- The pong reply path `select { case c.Send <- pong: default: }`: a full
queue silently drops the reply; a closed channel would panic. -/
def enqueueSelfOrDrop (c : ClientId) (m : Message) (s : HubState) : HubState :=
  if s.crashed then s
  else if s.sendClosed c then { s with crashed := true }
  else if (s.queue c).length < sendCap then
    { s with queue := fun x => if x = c then s.queue c ++ [m] else s.queue x }
  else s

/-- The body of `readPump`'s message loop for one inbound frame.  `none`
stands for a frame that failed `json.Unmarshal`.  The `typing` and `read`
cases hand a message to the hub's broadcast channel, which the hub loop
processes with `broadcastMessage`. -/
def handleFrame (userOf : ClientId → String) (c : ClientId) (f : Option InFrame)
    (s : HubState) : HubState :=
  match f with
  | none => s
  | some m =>
    if m.ftype = "ping" then enqueueSelfOrDrop c pongMsg s
    else if m.ftype = "join" then
      match m.fpayload with
      | .str r => joinRoom c r s
      | _ => s
    else if m.ftype = "typing" then
      match convIdOf m.fpayload with
      | some k => broadcastMessage (typingMsg k (userOf c) (isTypingOf m.fpayload)) s
      | none => s
    else if m.ftype = "read" then
      match convIdOf m.fpayload with
      | some k => broadcastMessage (readMsg k (userOf c)) s
      | none => s
    else s

/-- One step of the connection's `writePump` consuming from its queue. -/
def drain (c : ClientId) (s : HubState) : HubState :=
  if s.crashed then s
  else { s with queue := fun x => if x = c then (s.queue c).drop 1 else s.queue x }

/-- The operations a run of the system interleaves at the hub: full
connection setup, teardown, an inbound client frame, a fan-out requested by
application code (chat send / call signaling), and writer-side consumption. -/
inductive HubOp where
  | connect (c : ClientId)
  | disconnect (c : ClientId)
  | frame (c : ClientId) (f : Option InFrame)
  | send (m : Message)
  | drain (c : ClientId)

/-- Interpret one hub operation. -/
def hubStep (userOf : ClientId → String) (s : HubState) : HubOp → HubState
  | .connect c => connect userOf c s
  | .disconnect c => disconnect userOf c s
  | .frame c f => handleFrame userOf c f s
  | .send m => broadcastMessage m s
  | .drain c => drain c s

/-- Run a sequence of hub operations. -/
def runOps (userOf : ClientId → String) (ops : List HubOp) (s : HubState) : HubState :=
  ops.foldl (hubStep userOf) s

/-- The hub as built by `NewHub`, with no connection yet. -/
def initHub : HubState :=
  { clients := [], rooms := [], clientRooms := fun _ => [], queue := fun _ => [],
    sendClosed := fun _ => false, closeCount := fun _ => 0, crashed := false }

/-- A brand-new `Client` value as built by `HandleConnection`: not yet in the
registry, an open fresh send channel, an empty `Rooms` set, and not a member
of any room. -/
def FreshClient (s : HubState) (c : ClientId) : Prop :=
  c ∉ s.clients ∧ s.sendClosed c = false ∧ s.clientRooms c = [] ∧
    s.closeCount c = 0 ∧ ∀ e ∈ s.rooms, c ∉ e.2

instance (s : HubState) (c : ClientId) : Decidable (FreshClient s c) := by
  unfold FreshClient; infer_instance

/-- The member list a fan-out iterates: the target room's members when a
room is set, the global client set otherwise. -/
def fanTargets (s : HubState) (m : Message) : List ClientId :=
  if m.msgRoom = "" then s.clients else roomMembers s m.msgRoom

/-- No member of this fan-out has a full queue, so no force-drop occurs. -/
def SendSafe (s : HubState) (m : Message) : Prop :=
  ∀ c ∈ fanTargets s m, (s.queue c).length < sendCap

instance (s : HubState) (m : Message) : Decidable (SendSafe s m) := by
  unfold SendSafe; infer_instance

/-- The spec's Room-Registry invariant: the per-user room's membership is
exactly the set of currently registered connections of that user. -/
def RegistryMatches (userOf : ClientId → String) (s : HubState) : Prop :=
  ∀ u c, c ∈ roomMembers s (userRoom u) ↔ (c ∈ s.clients ∧ userOf c = u)

/-- The spec's subset invariant: a registered connection's own
room-membership set is contained in the registry's view of it. -/
def ClientRoomsSubset (s : HubState) : Prop :=
  ∀ c ∈ s.clients, ∀ r ∈ s.clientRooms c, c ∈ roomMembers s r

/-- Structural invariant tying the registry, the per-client room sets, and
the client set together along register/deregister/fan-out runs. -/
structure RegInv (userOf : ClientId → String) (s : HubState) : Prop where
  crashedFalse : s.crashed = false
  clientsNodup : s.clients.Nodup
  membersNodup : ∀ e ∈ s.rooms, e.2.Nodup
  memIff : ∀ c r, c ∈ roomMembers s r ↔ (c ∈ s.clients ∧ r ∈ s.clientRooms c)
  roomsOwn : ∀ c ∈ s.clients, s.clientRooms c = [userRoom (userOf c)]
  closedDead : ∀ c, s.sendClosed c = true → c ∉ s.clients

/-- Each send queue is closed at most once: an open channel has close count
0; a closed one has close count 1 and its client is gone from the set. -/
def CloseInv (s : HubState) : Prop :=
  s.clients.Nodup ∧
  ∀ c, (s.sendClosed c = false → s.closeCount c = 0) ∧
       (s.sendClosed c = true → s.closeCount c = 1 ∧ c ∉ s.clients)

/-- Along a run, every `connect` presents a brand-new client value, exactly
as `HandleConnection` builds a fresh `*Client` with a newly made channel. -/
def freshRun (userOf : ClientId → String) : HubState → List HubOp → Bool
  | _, [] => true
  | s, op :: rest =>
    (match op with
     | .connect c => decide (c ∉ s.clients ∧ s.sendClosed c = false)
     | _ => true) && freshRun userOf (hubStep userOf s op) rest

/-- A register/deregister/fan-out run in which every fan-out (the presence
broadcasts included) finds room in each target's queue, and every connect
presents a fresh client. -/
def noDropRun (userOf : ClientId → String) : HubState → List HubOp → Bool
  | _, [] => true
  | s, op :: rest =>
    (match op with
     | .connect c =>
        decide (FreshClient s c) &&
        decide (SendSafe (joinRoom c (userRoom (userOf c)) (hubRegister c s))
          (onlineMsg (userOf c)))
     | .disconnect c => decide (SendSafe (unregister c s) (offlineMsg (userOf c)))
     | .send m => decide (SendSafe s m)
     | .drain _ => true
     | .frame _ _ => false) && noDropRun userOf (hubStep userOf s op) rest

/-- Every connection in the concrete scenarios below belongs to user u1. -/
def c1User : ClientId → String := fun _ => "u1"

/-- A chat fan-out addressed to user u1's mailbox room. -/
def c1Chat : Message := { msgType := "message", msgRoom := "user:u1", payload := .null }

/-- Connect one client, then fan 256 envelopes out to its user room: the
first 255 fill the queue (the connect itself already queued the presence
event), and the 256th finds the queue full and force-drops the member. -/
def c1Ops : List HubOp := .connect 1 :: List.replicate 256 (.send c1Chat)

/-- A chat fan-out addressed to a conversation room. -/
def c4Msg : Message := { msgType := "message", msgRoom := "conv:c", payload := .null }

/-- Two registered members of a conversation room, member 1 with a full
send queue and member 2 with an empty one. -/
def c4State : HubState :=
  { clients := [1, 2], rooms := [("conv:c", [1, 2])],
    clientRooms := fun x => if x = 1 then ["conv:c"] else if x = 2 then ["conv:c"] else [],
    queue := fun x => if x = 1 then List.replicate sendCap c4Msg else [],
    sendClosed := fun _ => false, closeCount := fun _ => 0, crashed := false }

/-- Drive a two-member user room until member 1 is force-dropped (it stays
in the room with a closed channel), then let member 2's writer consume one
message so its queue has room again: connect 1 and 2, fan 255 envelopes out
to the shared user room (the 255th finds member 1's queue full and drops
it), then drain one message from member 2. -/
def c4PreOps : List HubOp :=
  .connect 1 :: .connect 2 :: (List.replicate 255 (.send c1Chat) ++ [.drain 2])

/-- The reachable state right before a fan-out that meets the dropped
member's closed channel. -/
def c4PreState : HubState := runOps c1User c4PreOps initHub

/-- Two registered members of a conversation room with empty queues. -/
def c8State : HubState :=
  { clients := [1, 2], rooms := [("conv:c", [1, 2])],
    clientRooms := fun x => if x = 1 then ["conv:c"] else if x = 2 then ["conv:c"] else [],
    queue := fun _ => [], sendClosed := fun _ => false, closeCount := fun _ => 0,
    crashed := false }

/-- An inbound typing control frame for conversation c with is_typing true. -/
def typingFrame : InFrame :=
  { ftype := "typing",
    fpayload := .obj [("conversation_id", .str "c"), ("is_typing", .bool true)] }

/-- A connect followed by two deregistrations of the same connection. -/
def c9Ops : List HubOp := [.connect 1, .disconnect 1, .disconnect 1]

/-- A register/fan-out/register/deregister run with no queue overflow. -/
def c1SafeOps : List HubOp :=
  [.connect 1, .send c1Chat, .connect 2, .disconnect 1]

/-- An inbound frame with an unknown type discriminator. -/
def badFrame : InFrame := { ftype := "frobnicate", fpayload := .null }

end YandasWS

namespace YandasCalls

/-- The persisted `models.CallLog` row (timestamps at second granularity;
user and call identifiers abstracted to naturals). -/
structure CallLog where
  id : Nat
  callerID : Nat
  calleeID : Nat
  callType : String
  status : String
  duration : Int
  channelID : Option String
  startedAt : Nat
  answeredAt : Option Nat
  endedAt : Option Nat
deriving DecidableEq

/-- A `BroadcastToUser` call made by a handler: the target user, the event
type, the call id carried in the payload, and the payload's `duration` field
when the event has one. -/
structure Notif where
  targetUser : Nat
  eventType : String
  callID : Nat
  durationField : Option Int
deriving DecidableEq

/-- One externally visible side effect of a handler, in program order. -/
inductive Effect where
  | createRow (row : CallLog)
  | updateRow (row : CallLog)
  | notify (n : Notif)
deriving DecidableEq

/-- What a call handler produces: the HTTP status of the JSON response, the
database after the request, the ordered effect trace, and the `duration`
field of the response body when the handler returns one. -/
structure CallOutcome where
  httpStatus : Nat
  db : List CallLog
  effects : List Effect
  bodyDuration : Option Int
deriving DecidableEq

/-- `gorm` `Updates` on the row with the given primary key. -/
def dbUpdate (db : List CallLog) (cid : Nat) (f : CallLog → CallLog) : List CallLog :=
  db.map (fun l => if l.id = cid then f l else l)

/-- The row built by `InitiateCall` and passed to `db.Create`. -/
def newCallRow (newCallID callerID receiverID : Nat) (callType channelName : String)
    (now : Nat) : CallLog :=
  { id := newCallID, callerID := callerID, calleeID := receiverID,
    callType := callType, status := "ringing", duration := 0,
    channelID := some channelName, startedAt := now, answeredAt := none,
    endedAt := none }

/-- `CallHandler.InitiateCall` after request binding: `callType` is
validated, then an Agora credential for uid 1 is requested (`tokenRes` is the
outcome of that external call), then the call-log row is created in state
`ringing`, and only then is `incoming_call` broadcast to the receiver's user
room.  A credential failure or a failed create returns HTTP 500 with no row
and no notification. -/
def initiateCall (callerID receiverID : Nat) (callType : String)
    (newCallID : Nat) (channelName : String) (tokenRes : Except String String)
    (createOk : Bool) (now : Nat) (db : List CallLog) : CallOutcome :=
  if callType ≠ "audio" ∧ callType ≠ "video" then
    { httpStatus := 400, db := db, effects := [], bodyDuration := none }
  else
    match tokenRes with
    | .error _ => { httpStatus := 500, db := db, effects := [], bodyDuration := none }
    | .ok _ =>
      let row := newCallRow newCallID callerID receiverID callType channelName now
      if createOk = false then
        { httpStatus := 500, db := db, effects := [], bodyDuration := none }
      else
        { httpStatus := 200, db := db ++ [row],
          effects := [.createRow row,
                      .notify { targetUser := receiverID, eventType := "incoming_call",
                                callID := newCallID, durationField := none }],
          bodyDuration := none }

/-- `CallHandler.AnswerCall`: looks the row up by id and callee, requires
state `ringing`, requests the uid-2 credential, then marks the call answered
and notifies the caller's room. -/
def answerCall (callID userID : Nat) (tokenRes : Except String String) (now : Nat)
    (db : List CallLog) : CallOutcome :=
  match db.find? (fun l => l.id = callID && l.calleeID = userID) with
  | none => { httpStatus := 404, db := db, effects := [], bodyDuration := none }
  | some log =>
    if log.status ≠ "ringing" then
      { httpStatus := 400, db := db, effects := [], bodyDuration := none }
    else
      match tokenRes with
      | .error _ => { httpStatus := 500, db := db, effects := [], bodyDuration := none }
      | .ok _ =>
        let upd : CallLog → CallLog :=
          fun l => { l with status := "answered", answeredAt := some now }
        { httpStatus := 200, db := dbUpdate db callID upd,
          effects := [.updateRow (upd log),
                      .notify { targetUser := log.callerID, eventType := "call_answered",
                                callID := log.id, durationField := none }],
          bodyDuration := none }

/-- `CallHandler.RejectCall`: looks the row up by id and callee and, with no
check of the current state, marks it declined with an ended timestamp and
notifies the caller's room. -/
def rejectCall (callID userID : Nat) (now : Nat) (db : List CallLog) : CallOutcome :=
  match db.find? (fun l => l.id = callID && l.calleeID = userID) with
  | none => { httpStatus := 404, db := db, effects := [], bodyDuration := none }
  | some log =>
    let upd : CallLog → CallLog :=
      fun l => { l with status := "declined", endedAt := some now }
    { httpStatus := 200, db := dbUpdate db callID upd,
      effects := [.updateRow (upd log),
                  .notify { targetUser := log.callerID, eventType := "call_rejected",
                            callID := log.id, durationField := none }],
      bodyDuration := none }

/-- `int(now.Sub(*callLog.AnsweredAt).Seconds())`, and 0 when the call was
never answered. -/
def callDuration (log : CallLog) (now : Nat) : Int :=
  match log.answeredAt with
  | some t => (now : Int) - (t : Int)
  | none => 0

/-- `CallHandler.EndCall`: looks the row up by id and either participant
and, with no check of the current state, computes the duration, marks the
call ended, and notifies the other participant's room with the duration. -/
def endCall (callID userID : Nat) (now : Nat) (db : List CallLog) : CallOutcome :=
  match db.find? (fun l => l.id = callID && (l.callerID = userID || l.calleeID = userID)) with
  | none => { httpStatus := 404, db := db, effects := [], bodyDuration := none }
  | some log =>
    let dur := callDuration log now
    let upd : CallLog → CallLog :=
      fun l => { l with status := "ended", endedAt := some now, duration := dur }
    let otherUser := if log.callerID = userID then log.calleeID else log.callerID
    { httpStatus := 200, db := dbUpdate db callID upd,
      effects := [.updateRow (upd log),
                  .notify { targetUser := otherUser, eventType := "call_ended",
                            callID := log.id, durationField := some dur }],
      bodyDuration := some dur }

/-- The database produced by `initiate(caller 10 → callee 20, audio)` at
t=0, followed by `answer` by user 20 at t=5: the concrete
initiate → answer → end scenario of the spec. -/
def scenarioDb : List CallLog :=
  (answerCall 1 20 (.ok "tok2") 5
    (initiateCall 10 20 "audio" 1 "ch" (.ok "tok1") true 0 []).db).db

/-- The stored row of the scenario call right after the answer. -/
def scenarioAnswered : CallLog :=
  { id := 1, callerID := 10, calleeID := 20, callType := "audio",
    status := "answered", duration := 0, channelID := some "ch", startedAt := 0,
    answeredAt := some 5, endedAt := none }

/-- A call record that has been answered: state `answered`, answered at t=5. -/
def answeredLog : CallLog :=
  { id := 1, callerID := 10, calleeID := 20, callType := "audio",
    status := "answered", duration := 0, channelID := some "ch", startedAt := 0,
    answeredAt := some 5, endedAt := none }

/-- A call record in the terminal state `ended`. -/
def endedLog : CallLog :=
  { id := 2, callerID := 10, calleeID := 20, callType := "audio",
    status := "ended", duration := 25, channelID := some "ch", startedAt := 0,
    answeredAt := some 5, endedAt := some 30 }

/-- C2: the claim as stated is false: `RejectCall` never checks the current
state, so rejecting a call whose state is `answered` returns HTTP 200 and
mutates the stored record to `declined`. -/
theorem C2_counterexample :
    (rejectCall 1 20 9 [answeredLog]).httpStatus = 200 ∧
      (rejectCall 1 20 9 [answeredLog]).db ≠ [answeredLog] := by decide

/-- C2 (amended): `reject(call_id, callee)` succeeds for any call record
found by (id, callee) regardless of its current state — including
`answered` — mutating it to `declined` with an ended timestamp; it fails
(404, no mutation) only when no such record exists. -/
theorem C2_reject_no_state_check (callID userID now : Nat) (db : List CallLog) :
    (db.find? (fun l => l.id = callID && l.calleeID = userID) = none →
      rejectCall callID userID now db
        = { httpStatus := 404, db := db, effects := [], bodyDuration := none }) ∧
    (∀ log, db.find? (fun l => l.id = callID && l.calleeID = userID) = some log →
      (rejectCall callID userID now db).httpStatus = 200 ∧
      (rejectCall callID userID now db).db
        = dbUpdate db callID (fun l => { l with status := "declined", endedAt := some now })) := by
  constructor
  · intro h
    simp [rejectCall, h]
  · intro log h
    simp [rejectCall, h]

/-- Witness for C2's amended theorem at a concrete `answered` record. -/
theorem C2_reject_no_state_check_witness :
    ([answeredLog].find? (fun l => l.id = 1 && l.calleeID = 20) = some answeredLog) ∧
    (rejectCall 1 20 9 [answeredLog]).httpStatus = 200 ∧
    (rejectCall 1 20 9 [answeredLog]).db
      = dbUpdate [answeredLog] 1 (fun l => { l with status := "declined", endedAt := some 9 }) :=
  ⟨by decide, (C2_reject_no_state_check 1 20 9 [answeredLog]).2 answeredLog (by decide)⟩

/-- C3: the claim as stated is false: a call whose recorded state is `ended`
is mutated by a subsequent reject (its state becomes `declined` and its
ended timestamp is overwritten). -/
theorem C3_counterexample :
    (rejectCall 2 20 40 [endedLog]).httpStatus = 200 ∧
      (rejectCall 2 20 40 [endedLog]).db ≠ [endedLog] := by decide

/-- C3 (amended): the terminal states are enforced only against `answer`: an
`answer` on a call whose state is not `ringing` fails (400) with no
mutation, but `reject` and `end` perform no state check at all — a call in
`ended` or `declined` is mutated by a subsequent reject (to `declined`) or
end (to `ended`), and `end` is accepted in every state for a participant. -/
theorem C3_terminal_states (callID userID now : Nat) (tok : Except String String)
    (db : List CallLog) :
    (∀ log, db.find? (fun l => l.id = callID && l.calleeID = userID) = some log →
      log.status ≠ "ringing" →
      answerCall callID userID tok now db
        = { httpStatus := 404, db := db, effects := [], bodyDuration := none }
        ∨ answerCall callID userID tok now db
          = { httpStatus := 400, db := db, effects := [], bodyDuration := none }) ∧
    (∀ log, db.find? (fun l => l.id = callID && l.calleeID = userID) = some log →
      (log.status = "ended" ∨ log.status = "declined") →
      (rejectCall callID userID now db).httpStatus = 200 ∧
      (rejectCall callID userID now db).db
        = dbUpdate db callID (fun l => { l with status := "declined", endedAt := some now })) ∧
    (∀ log, db.find? (fun l => l.id = callID && (l.callerID = userID || l.calleeID = userID)) = some log →
      (endCall callID userID now db).httpStatus = 200 ∧
      (endCall callID userID now db).db
        = dbUpdate db callID
            (fun l => { l with status := "ended", endedAt := some now,
                               duration := callDuration log now })) := by
  refine ⟨?_, ?_, ?_⟩
  · intro log h hs
    right
    simp [answerCall, h, hs]
  · intro log h _
    simp [rejectCall, h]
  · intro log h
    simp [endCall, h]

/-- Witness for C3's amended theorem: an `ended` record is left unchanged by
`answer` but mutated by `reject` and `end`. -/
theorem C3_terminal_states_witness :
    ([endedLog].find? (fun l => l.id = 2 && l.calleeID = 20) = some endedLog) ∧
    (endedLog.status ≠ "ringing") ∧
    (endedLog.status = "ended" ∨ endedLog.status = "declined") ∧
    ([endedLog].find? (fun l => l.id = 2 && (l.callerID = 20 || l.calleeID = 20)) = some endedLog) ∧
    (answerCall 2 20 (.ok "t") 40 [endedLog]
        = { httpStatus := 404, db := [endedLog], effects := [], bodyDuration := none }
      ∨ answerCall 2 20 (.ok "t") 40 [endedLog]
        = { httpStatus := 400, db := [endedLog], effects := [], bodyDuration := none }) ∧
    (rejectCall 2 20 40 [endedLog]).db
      = dbUpdate [endedLog] 2 (fun l => { l with status := "declined", endedAt := some 40 }) ∧
    (endCall 2 20 40 [endedLog]).db
      = dbUpdate [endedLog] 2
          (fun l => { l with status := "ended", endedAt := some 40,
                             duration := callDuration endedLog 40 }) := by
  have h := C3_terminal_states 2 20 40 (.ok "t") [endedLog]
  exact ⟨by decide, by decide, by decide, by decide,
         h.1 endedLog (by decide) (by decide),
         (h.2.1 endedLog (by decide) (by decide)).2,
         (h.2.2 endedLog (by decide)).2⟩

/-- C5: ending a call in `ringing` or `answered` (for a participant) marks
it `ended`, computes the duration as `ended_at - answered_at` in whole
seconds when answered (non-negative when the clock is monotone) and 0 when
never answered, returns the duration in the response body, and includes the
same duration in the `call_ended` notification to the other participant. -/
theorem C5_end_duration (callID userID now : Nat) (db : List CallLog) (log : CallLog)
    (hfind : db.find? (fun l => l.id = callID && (l.callerID = userID || l.calleeID = userID))
      = some log)
    (_hstate : log.status = "ringing" ∨ log.status = "answered") :
    endCall callID userID now db
      = { httpStatus := 200,
          db := dbUpdate db callID
            (fun l => { l with status := "ended", endedAt := some now,
                               duration := callDuration log now }),
          effects := [.updateRow { log with status := "ended", endedAt := some now,
                                            duration := callDuration log now },
                      .notify { targetUser := if log.callerID = userID
                                              then log.calleeID else log.callerID,
                                eventType := "call_ended", callID := log.id,
                                durationField := some (callDuration log now) }],
          bodyDuration := some (callDuration log now) } ∧
    (log.answeredAt = none → callDuration log now = 0) ∧
    (∀ t, log.answeredAt = some t → t ≤ now → 0 ≤ callDuration log now) := by
  refine ⟨?_, ?_, ?_⟩
  · simp [endCall, hfind]
  · intro h
    simp [callDuration, h]
  · intro t h ht
    simp [callDuration, h]
    omega

/-- Witness for C5: in the initiate → answer → end scenario (t = 0, 5, 65)
the caller ends the call and the computed duration is 60 seconds. -/
theorem C5_end_duration_witness :
    (scenarioDb.find? (fun l => l.id = 1 && (l.callerID = 10 || l.calleeID = 10))
      = some scenarioAnswered) ∧
    (scenarioAnswered.status = "ringing" ∨ scenarioAnswered.status = "answered") ∧
    (endCall 1 10 65 scenarioDb).httpStatus = 200 ∧
    (endCall 1 10 65 scenarioDb).bodyDuration = some 60 ∧
    (endCall 1 10 65 scenarioDb).db
      = [{ scenarioAnswered with status := "ended", endedAt := some 65, duration := 60 }] := by
  have h := C5_end_duration 1 10 65 scenarioDb scenarioAnswered (by decide) (by decide)
  refine ⟨by decide, by decide, ?_, ?_, ?_⟩
  · rw [h.1]
  · rw [h.1]
    decide
  · rw [h.1]
    decide

/-- C6: when Agora credential issuance fails during initiate, the handler
returns a fatal 500 with no call-log row created and no `incoming_call`
notification (the database is unchanged); when it succeeds and the create
succeeds, a row in state `ringing` is appended and the `createRow` effect
strictly precedes the `incoming_call` notification in the effect trace. -/
theorem C6_initiate_credential (callerID receiverID newCallID : Nat)
    (callType channelName : String) (now : Nat) (db : List CallLog)
    (tokenRes : Except String String) (createOk : Bool)
    (hk : callType = "audio" ∨ callType = "video") :
    (∀ e, tokenRes = .error e →
      initiateCall callerID receiverID callType newCallID channelName tokenRes createOk now db
        = { httpStatus := 500, db := db, effects := [], bodyDuration := none }) ∧
    (∀ tok, tokenRes = .ok tok → createOk = true →
      initiateCall callerID receiverID callType newCallID channelName tokenRes createOk now db
        = { httpStatus := 200,
            db := db ++ [newCallRow newCallID callerID receiverID callType channelName now],
            effects := [.createRow (newCallRow newCallID callerID receiverID callType channelName now),
                        .notify { targetUser := receiverID, eventType := "incoming_call",
                                  callID := newCallID, durationField := none }],
            bodyDuration := none }
      ∧ (newCallRow newCallID callerID receiverID callType channelName now).status
          = "ringing") := by
  have hk' : ¬ (callType ≠ "audio" ∧ callType ≠ "video") := by
    rcases hk with h | h <;> simp [h]
  constructor
  · intro e he
    simp [initiateCall, hk', he]
  · intro tok ht hc
    subst ht hc
    refine ⟨?_, rfl⟩
    simp [initiateCall, hk']

/-- Witness for C6 at concrete inputs: a failing issuance leaves the (empty)
database unchanged with no effects; a successful one appends the ringing row
and then notifies. -/
theorem C6_initiate_credential_witness :
    ("audio" = "audio" ∨ "audio" = "video") ∧
    initiateCall 10 20 "audio" 1 "ch" (.error "agora down") true 0 []
      = { httpStatus := 500, db := [], effects := [], bodyDuration := none } ∧
    initiateCall 10 20 "audio" 1 "ch" (.ok "tok") true 0 []
      = { httpStatus := 200, db := [newCallRow 1 10 20 "audio" "ch" 0],
          effects := [.createRow (newCallRow 1 10 20 "audio" "ch" 0),
                      .notify { targetUser := 20, eventType := "incoming_call",
                                callID := 1, durationField := none }],
          bodyDuration := none } :=
  ⟨Or.inl rfl,
   (C6_initiate_credential 10 20 1 "audio" "ch" 0 [] (.error "agora down") true
      (Or.inl rfl)).1 "agora down" rfl,
   by
     have h := (C6_initiate_credential 10 20 1 "audio" "ch" 0 [] (.ok "tok") true
       (Or.inl rfl)).2 "tok" rfl rfl
     simpa using h.1⟩

end YandasCalls

namespace YandasWS

lemma attemptSend_queue_only (m : Message) (s : HubState) (c : ClientId)
    (hcr : s.crashed = false) (ho : s.sendClosed c = false)
    (hs : (s.queue c).length < sendCap) :
    attemptSend m s c
      = { s with queue := fun x => if x = c then s.queue c ++ [m] else s.queue x } := by
  simp [attemptSend, hcr, ho, hs]

lemma attemptSend_drop (m : Message) (s : HubState) (c : ClientId)
    (hcr : s.crashed = false) (ho : s.sendClosed c = false)
    (hs : ¬ (s.queue c).length < sendCap) :
    attemptSend m s c
      = { s with
          sendClosed := fun x => if x = c then true else s.sendClosed x,
          closeCount := fun x => if x = c then s.closeCount x + 1 else s.closeCount x,
          clients := s.clients.erase c } := by
  simp [attemptSend, hcr, ho, hs]

lemma attemptSend_rooms (m : Message) (s : HubState) (c : ClientId) :
    (attemptSend m s c).rooms = s.rooms ∧
      (attemptSend m s c).clientRooms = s.clientRooms := by
  unfold attemptSend
  by_cases h1 : s.crashed <;> simp [h1]
  by_cases h2 : s.sendClosed c <;> simp [h2]
  by_cases h3 : (s.queue c).length < sendCap <;> simp [h3]

lemma foldl_attemptSend_rooms (m : Message) :
    ∀ (l : List ClientId) (s : HubState),
      (l.foldl (attemptSend m) s).rooms = s.rooms ∧
        (l.foldl (attemptSend m) s).clientRooms = s.clientRooms := by
  intro l
  induction l with
  | nil => intro s; exact ⟨rfl, rfl⟩
  | cons c t ih =>
    intro s
    rw [List.foldl_cons]
    refine ⟨?_, ?_⟩
    · rw [(ih (attemptSend m s c)).1, (attemptSend_rooms m s c).1]
    · rw [(ih (attemptSend m s c)).2, (attemptSend_rooms m s c).2]

/-- A fan-out never changes the rooms map or any client's own room set —
in particular a member force-dropped for backpressure keeps all of its room
memberships. -/
lemma broadcastMessage_rooms (m : Message) (s : HubState) :
    (broadcastMessage m s).rooms = s.rooms ∧
      (broadcastMessage m s).clientRooms = s.clientRooms := by
  unfold broadcastMessage
  by_cases h1 : s.crashed <;> simp [h1]
  by_cases h2 : m.msgRoom = "" <;>
    simp [h2, foldl_attemptSend_rooms m _ s]

/-- A fan-out over a duplicate-free target list whose members all have open
channels and room in their queues delivers the envelope to exactly the
targets and changes nothing else. -/
lemma deliverFold_safe (m : Message) :
    ∀ (l : List ClientId) (s : HubState), l.Nodup → s.crashed = false →
      (∀ c ∈ l, s.sendClosed c = false ∧ (s.queue c).length < sendCap) →
      (l.foldl (attemptSend m) s).clients = s.clients ∧
      (l.foldl (attemptSend m) s).rooms = s.rooms ∧
      (l.foldl (attemptSend m) s).clientRooms = s.clientRooms ∧
      (l.foldl (attemptSend m) s).sendClosed = s.sendClosed ∧
      (l.foldl (attemptSend m) s).closeCount = s.closeCount ∧
      (l.foldl (attemptSend m) s).crashed = false ∧
      (∀ x, (l.foldl (attemptSend m) s).queue x
          = if x ∈ l then s.queue x ++ [m] else s.queue x) := by
  intro l
  induction l with
  | nil =>
    intro s _ hcr _
    simp [hcr]
  | cons c t ih =>
    intro s hnd hcr hok
    obtain ⟨hct, hndt⟩ := List.nodup_cons.mp hnd
    obtain ⟨hoc, hsc⟩ := hok c (List.mem_cons_self c t)
    have hstep := attemptSend_queue_only m s c hcr hoc hsc
    rw [List.foldl_cons, hstep]
    have hok' : ∀ x ∈ t,
        ({ s with queue := fun x => if x = c then s.queue c ++ [m] else s.queue x }
          : HubState).sendClosed x = false ∧
        (({ s with queue := fun x => if x = c then s.queue c ++ [m] else s.queue x }
          : HubState).queue x).length < sendCap := by
      intro x hx
      have hxc : x ≠ c := fun h => hct (h ▸ hx)
      exact ⟨(hok x (List.mem_cons_of_mem c hx)).1,
        by simpa [hxc] using (hok x (List.mem_cons_of_mem c hx)).2⟩
    obtain ⟨h1, h2, h3, h4, h5, h6, h7⟩ :=
      ih { s with queue := fun x => if x = c then s.queue c ++ [m] else s.queue x }
        hndt hcr hok'
    refine ⟨h1, h2, h3, h4, h5, h6, ?_⟩
    intro x
    rw [h7 x]
    by_cases hxc : x = c
    · subst hxc
      simp [hct]
    · simp [hxc, List.mem_cons]

/-- A fan-out over a duplicate-free target list whose members all have open
channels: members with queue room receive the envelope; members with a full
queue keep their queue, get their channel closed exactly once, and are
removed from the global client set; everything else is untouched. -/
lemma deliverFold_drops (m : Message) :
    ∀ (l : List ClientId) (s : HubState), l.Nodup → s.clients.Nodup →
      s.crashed = false → (∀ c ∈ l, s.sendClosed c = false) →
      (l.foldl (attemptSend m) s).crashed = false ∧
      (l.foldl (attemptSend m) s).clients.Nodup ∧
      (∀ x, x ∉ l →
        (l.foldl (attemptSend m) s).queue x = s.queue x ∧
        (l.foldl (attemptSend m) s).sendClosed x = s.sendClosed x ∧
        (l.foldl (attemptSend m) s).closeCount x = s.closeCount x ∧
        (x ∈ (l.foldl (attemptSend m) s).clients ↔ x ∈ s.clients)) ∧
      (∀ x ∈ l, (s.queue x).length < sendCap →
        (l.foldl (attemptSend m) s).queue x = s.queue x ++ [m] ∧
        (l.foldl (attemptSend m) s).sendClosed x = false ∧
        (l.foldl (attemptSend m) s).closeCount x = s.closeCount x ∧
        (x ∈ (l.foldl (attemptSend m) s).clients ↔ x ∈ s.clients)) ∧
      (∀ x ∈ l, ¬ (s.queue x).length < sendCap →
        (l.foldl (attemptSend m) s).queue x = s.queue x ∧
        (l.foldl (attemptSend m) s).sendClosed x = true ∧
        (l.foldl (attemptSend m) s).closeCount x = s.closeCount x + 1 ∧
        x ∉ (l.foldl (attemptSend m) s).clients) := by
  intro l
  induction l with
  | nil =>
    intro s _ hclnd hcr _
    simp [hcr, hclnd]
  | cons c t ih =>
    intro s hnd hclnd hcr hok
    obtain ⟨hct, hndt⟩ := List.nodup_cons.mp hnd
    have hoc : s.sendClosed c = false := hok c (List.mem_cons_self c t)
    by_cases hsc : (s.queue c).length < sendCap
    · -- the head's queue has room: only its queue changes
      have hstep := attemptSend_queue_only m s c hcr hoc hsc
      rw [List.foldl_cons, hstep]
      obtain ⟨g1, g2, g3, g4, g5⟩ :=
        ih { s with queue := fun x => if x = c then s.queue c ++ [m] else s.queue x }
          hndt hclnd hcr (fun x hx => hok x (List.mem_cons_of_mem c hx))
      refine ⟨g1, g2, ?_, ?_, ?_⟩
      · intro x hx
        have hxc : x ≠ c := fun h => hx (h ▸ List.mem_cons_self c t)
        have hxt : x ∉ t := fun h => hx (List.mem_cons_of_mem c h)
        obtain ⟨e1, e2, e3, e4⟩ := g3 x hxt
        exact ⟨by rw [e1]; simp [hxc], e2, e3, e4⟩
      · intro x hx hxs
        rcases List.mem_cons.mp hx with hxc | hxt
        · subst hxc
          obtain ⟨e1, e2, e3, e4⟩ := g3 x hct
          exact ⟨by rw [e1]; simp, by rw [e2]; exact hoc, e3, e4⟩
        · have hxc : x ≠ c := fun h => hct (h ▸ hxt)
          obtain ⟨e1, e2, e3, e4⟩ := g4 x hxt (by simpa [hxc] using hxs)
          exact ⟨by rw [e1]; simp [hxc], e2, e3, e4⟩
      · intro x hx hxs
        rcases List.mem_cons.mp hx with hxc | hxt
        · exact absurd (hxc ▸ hsc) hxs
        · have hxc : x ≠ c := fun h => hct (h ▸ hxt)
          obtain ⟨e1, e2, e3, e4⟩ := g5 x hxt (by simpa [hxc] using hxs)
          exact ⟨by rw [e1]; simp [hxc], e2, e3, e4⟩
    · -- the head's queue is full: close it and drop it from the client set
      have hstep := attemptSend_drop m s c hcr hoc hsc
      rw [List.foldl_cons, hstep]
      have hclnd1 : (s.clients.erase c).Nodup := hclnd.erase c
      have hok1 : ∀ x ∈ t,
          (if x = c then true else s.sendClosed x) = false := by
        intro x hx
        have hxc : x ≠ c := fun h => hct (h ▸ hx)
        simpa [hxc] using hok x (List.mem_cons_of_mem c hx)
      obtain ⟨g1, g2, g3, g4, g5⟩ :=
        ih { s with
              sendClosed := fun x => if x = c then true else s.sendClosed x,
              closeCount := fun x => if x = c then s.closeCount x + 1 else s.closeCount x,
              clients := s.clients.erase c }
          hndt hclnd1 hcr hok1
      have hniers : c ∉ s.clients.erase c := by
        simp [List.Nodup.mem_erase_iff hclnd]
      refine ⟨g1, g2, ?_, ?_, ?_⟩
      · intro x hx
        have hxc : x ≠ c := fun h => hx (h ▸ List.mem_cons_self c t)
        have hxt : x ∉ t := fun h => hx (List.mem_cons_of_mem c h)
        obtain ⟨e1, e2, e3, e4⟩ := g3 x hxt
        refine ⟨e1, by rw [e2]; simp [hxc], by rw [e3]; simp [hxc], ?_⟩
        rw [e4]
        exact List.mem_erase_of_ne hxc
      · intro x hx hxs
        rcases List.mem_cons.mp hx with hxc | hxt
        · exact absurd (hxc ▸ hxs) hsc
        · have hxc : x ≠ c := fun h => hct (h ▸ hxt)
          obtain ⟨e1, e2, e3, e4⟩ := g4 x hxt hxs
          refine ⟨e1, e2, by rw [e3]; simp [hxc], ?_⟩
          rw [e4]
          exact List.mem_erase_of_ne hxc
      · intro x hx hxs
        rcases List.mem_cons.mp hx with hxc | hxt
        · subst hxc
          obtain ⟨e1, e2, e3, e4⟩ := g3 x hct
          refine ⟨e1, by rw [e2]; simp, by rw [e3]; simp, ?_⟩
          intro hmem
          exact hniers (e4.mp hmem)
        · have hxc : x ≠ c := fun h => hct (h ▸ hxt)
          obtain ⟨e1, e2, e3, e4⟩ := g5 x hxt hxs
          exact ⟨e1, e2, by rw [e3]; simp [hxc], e4⟩

/-- A room fan-out over members whose channels are all open: full-queue
members keep their queue, have their channel closed, and are dropped from
the global client set, while every member with queue room receives the
envelope — including members visited after a drop. -/
lemma fanout_open_members (m : Message) (s : HubState)
    (hroom : m.msgRoom ≠ "") (hcr : s.crashed = false)
    (hnd : (roomMembers s m.msgRoom).Nodup) (hcl : s.clients.Nodup)
    (hop : ∀ c ∈ roomMembers s m.msgRoom, s.sendClosed c = false) :
    (∀ c ∈ roomMembers s m.msgRoom, ¬ (s.queue c).length < sendCap →
       (broadcastMessage m s).sendClosed c = true ∧
       c ∉ (broadcastMessage m s).clients ∧
       (broadcastMessage m s).queue c = s.queue c) ∧
    (∀ c ∈ roomMembers s m.msgRoom, (s.queue c).length < sendCap →
       (broadcastMessage m s).queue c = s.queue c ++ [m] ∧
       (c ∈ (broadcastMessage m s).clients ↔ c ∈ s.clients)) ∧
    (broadcastMessage m s).crashed = false ∧
    (broadcastMessage m s).rooms = s.rooms := by
  have heq : broadcastMessage m s = (roomMembers s m.msgRoom).foldl (attemptSend m) s := by
    simp [broadcastMessage, hcr, hroom]
  obtain ⟨g1, g2, g3, g4, g5⟩ :=
    deliverFold_drops m (roomMembers s m.msgRoom) s hnd hcl hcr hop
  rw [heq]
  refine ⟨?_, ?_, g1, (foldl_attemptSend_rooms m _ s).1⟩
  · intro c hc hfull
    obtain ⟨e1, e2, e3, e4⟩ := g5 c hc hfull
    exact ⟨e2, e4, e1⟩
  · intro c hc hsp
    obtain ⟨e1, e2, e3, e4⟩ := g4 c hc hsp
    exact ⟨e1, e4⟩

lemma foldl_attemptSend_of_crashed (m : Message) :
    ∀ (l : List ClientId) (s : HubState), s.crashed = true →
      l.foldl (attemptSend m) s = s := by
  intro l
  induction l with
  | nil => intro s _; rfl
  | cons x t ih =>
    intro s hcr
    rw [List.foldl_cons]
    have hx : attemptSend m s x = s := by simp [attemptSend, hcr]
    rw [hx]
    exact ih s hcr

lemma attemptSend_sendClosed_mono (m : Message) (s : HubState) (x c : ClientId)
    (h : s.sendClosed c = true) : (attemptSend m s x).sendClosed c = true := by
  unfold attemptSend
  by_cases h1 : s.crashed
  · rw [if_pos h1]
    exact h
  rw [if_neg h1]
  by_cases h2 : s.sendClosed x
  · rw [if_pos h2]
    exact h
  rw [if_neg h2]
  by_cases h3 : (s.queue x).length < sendCap
  · rw [if_pos h3]
    exact h
  · rw [if_neg h3]
    show (if c = x then true else s.sendClosed c) = true
    by_cases hcx : c = x
    · simp [hcx]
    · simp [hcx, h]

/-- Once any visited member's channel is closed, the fan-out panics the hub
goroutine: the crash flag is set and survives the rest of the fold. -/
lemma foldl_attemptSend_crash_of_closed (m : Message) :
    ∀ (l : List ClientId) (s : HubState) (c : ClientId), c ∈ l →
      s.sendClosed c = true → (l.foldl (attemptSend m) s).crashed = true := by
  intro l
  induction l with
  | nil =>
    intro s c hc _
    exact absurd hc (List.not_mem_nil c)
  | cons x t ih =>
    intro s c hc hclosed
    rw [List.foldl_cons]
    by_cases h1 : s.crashed
    · rw [show attemptSend m s x = s from by simp [attemptSend, h1]]
      rw [foldl_attemptSend_of_crashed m t s h1]
      exact h1
    · rcases List.mem_cons.mp hc with hcx | hct
      · subst hcx
        have hx : attemptSend m s c = { s with crashed := true } := by
          simp [attemptSend, h1, hclosed]
        rw [hx, foldl_attemptSend_of_crashed m t _ rfl]
      · exact ih (attemptSend m s x) c hct (attemptSend_sendClosed_mono m s x c hclosed)

/-- C4 (amended): a `send_to_room` fan-out whose members all have open send
channels attempts per-member delivery without ever waiting — a member whose
bounded queue is full keeps its queue, has its channel closed, and is
dropped from the global client set, while delivery to the remaining members
proceeds.  But a fan-out to a room that still holds a member whose channel
was closed by an earlier force-drop (room membership is never cleaned up by
fan-out) panics the hub goroutine on the send to the closed channel. -/
theorem C4_fanout_backpressure (m : Message) (s : HubState)
    (hroom : m.msgRoom ≠ "") (hcr : s.crashed = false)
    (hnd : (roomMembers s m.msgRoom).Nodup) (hcl : s.clients.Nodup) :
    ((∀ c ∈ roomMembers s m.msgRoom, s.sendClosed c = false) →
      (∀ c ∈ roomMembers s m.msgRoom, ¬ (s.queue c).length < sendCap →
        (broadcastMessage m s).sendClosed c = true ∧
        c ∉ (broadcastMessage m s).clients ∧
        (broadcastMessage m s).queue c = s.queue c) ∧
      (∀ c ∈ roomMembers s m.msgRoom, (s.queue c).length < sendCap →
        (broadcastMessage m s).queue c = s.queue c ++ [m] ∧
        (c ∈ (broadcastMessage m s).clients ↔ c ∈ s.clients)) ∧
      (broadcastMessage m s).crashed = false ∧
      (broadcastMessage m s).rooms = s.rooms) ∧
    (∀ c ∈ roomMembers s m.msgRoom, s.sendClosed c = true →
      (broadcastMessage m s).crashed = true) := by
  constructor
  · intro hop
    exact fanout_open_members m s hroom hcr hnd hcl hop
  · intro c hc hclosed
    have heq : broadcastMessage m s = (roomMembers s m.msgRoom).foldl (attemptSend m) s := by
      simp [broadcastMessage, hcr, hroom]
    rw [heq]
    exact foldl_attemptSend_crash_of_closed m (roomMembers s m.msgRoom) s c hc hclosed

/-- C4: the claim as stated is false: after a reachable force-drop the
dropped member stays in the room with a closed channel, and the next
fan-out to that room panics the hub on the send to the closed channel —
member 2, still registered with an open channel and room in its queue,
never receives the envelope, so delivery to the remaining members does not
proceed. -/
theorem C4_counterexample :
    1 ∈ roomMembers c4PreState (userRoom "u1") ∧
    c4PreState.sendClosed 1 = true ∧
    1 ∉ c4PreState.clients ∧
    2 ∈ roomMembers c4PreState (userRoom "u1") ∧
    2 ∈ c4PreState.clients ∧
    c4PreState.sendClosed 2 = false ∧
    (c4PreState.queue 2).length < sendCap ∧
    (broadcastMessage c1Chat c4PreState).crashed = true ∧
    ((broadcastMessage c1Chat c4PreState).queue 2).length
      = (c4PreState.queue 2).length := by
  decide

/-- Witness for C4's amended theorem: with both members' channels open —
member 1's queue full, member 2's with room — the fan-out drops member 1
from the client set, closes its channel, and still delivers to member 2. -/
theorem C4_fanout_backpressure_witness :
    (c4Msg.msgRoom ≠ "") ∧ c4State.crashed = false ∧
    (roomMembers c4State c4Msg.msgRoom).Nodup ∧ c4State.clients.Nodup ∧
    (∀ c ∈ roomMembers c4State c4Msg.msgRoom, c4State.sendClosed c = false) ∧
    ¬ (c4State.queue 1).length < sendCap ∧ (c4State.queue 2).length < sendCap ∧
    ((broadcastMessage c4Msg c4State).sendClosed 1 = true ∧
      1 ∉ (broadcastMessage c4Msg c4State).clients ∧
      (broadcastMessage c4Msg c4State).queue 1 = c4State.queue 1) ∧
    ((broadcastMessage c4Msg c4State).queue 2 = c4State.queue 2 ++ [c4Msg] ∧
      (2 ∈ (broadcastMessage c4Msg c4State).clients ↔ 2 ∈ c4State.clients)) := by
  have h := C4_fanout_backpressure c4Msg c4State (by decide) rfl (by decide) (by decide)
  have h1 := h.1 (by decide)
  exact ⟨by decide, rfl, by decide, by decide, by decide, by decide, by decide,
    h1.1 1 (by decide) (by decide), h1.2.1 2 (by decide) (by decide)⟩

lemma membersOf_roomsInsert_self (r : String) (c : ClientId) :
    ∀ rooms, membersOf (roomsInsert rooms r c) r
      = if c ∈ membersOf rooms r then membersOf rooms r else membersOf rooms r ++ [c] := by
  intro rooms
  induction rooms with
  | nil => simp [roomsInsert, membersOf]
  | cons e rest ih =>
    obtain ⟨r', ms⟩ := e
    by_cases h : r' = r
    · subst h
      simp [roomsInsert, membersOf]
    · simp [roomsInsert, membersOf, h, ih]

lemma membersOf_roomsInsert_ne (r q : String) (c : ClientId) (hqr : q ≠ r) :
    ∀ rooms, membersOf (roomsInsert rooms r c) q = membersOf rooms q := by
  have hrq : r ≠ q := fun h => hqr h.symm
  intro rooms
  induction rooms with
  | nil => simp [roomsInsert, membersOf, hrq]
  | cons e rest ih =>
    obtain ⟨r', ms⟩ := e
    by_cases h : r' = r
    · subst h
      simp [roomsInsert, membersOf, hrq]
    · simp [roomsInsert, membersOf, h, ih]

lemma not_mem_membersOf (c : ClientId) (q : String) :
    ∀ rooms, (∀ e ∈ rooms, c ∉ e.2) → c ∉ membersOf rooms q := by
  intro rooms
  induction rooms with
  | nil =>
    intro _
    simp [membersOf]
  | cons e rest ih =>
    intro h
    obtain ⟨r', ms⟩ := e
    by_cases hq : r' = q
    · subst hq
      simpa [membersOf] using h (r', ms) (by simp)
    · simp only [membersOf, hq, if_false]
      exact ih (fun e he => h e (List.mem_cons_of_mem _ he))

/-- C7 (amended): a connect adds the client to the global set, auto-joins it
to its own per-user room, and enqueues the `user_online` presence event
(with no target room) exactly once to every registered connection — the
newly registered connection itself included. -/
theorem C7_register_presence (userOf : ClientId → String) (c : ClientId) (s : HubState)
    (hcr : s.crashed = false) (hf : FreshClient s c) (hnd : s.clients.Nodup)
    (hok : ∀ x ∈ s.clients ++ [c],
      s.sendClosed x = false ∧ (s.queue x).length < sendCap) :
    (connect userOf c s).clients = s.clients ++ [c] ∧
    c ∈ roomMembers (connect userOf c s) (userRoom (userOf c)) ∧
    (connect userOf c s).clientRooms c = [userRoom (userOf c)] ∧
    (∀ x ∈ s.clients ++ [c],
      (connect userOf c s).queue x = s.queue x ++ [onlineMsg (userOf c)]) ∧
    (∀ x, x ∉ s.clients ++ [c] → (connect userOf c s).queue x = s.queue x) := by
  obtain ⟨hc, hclosed, hrooms0, hcount, hnomem⟩ := hf
  have h1 : hubRegister c s = { s with clients := s.clients ++ [c] } := by
    simp [hubRegister, hcr, hc]
  have h2 : joinRoom c (userRoom (userOf c)) (hubRegister c s)
      = { s with clients := s.clients ++ [c],
                 rooms := roomsInsert s.rooms (userRoom (userOf c)) c,
                 clientRooms := fun x =>
                   if x = c then s.clientRooms c ++ [userRoom (userOf c)]
                   else s.clientRooms x } := by
    rw [h1]
    simp [joinRoom, hcr, hrooms0]
  have hnd2 : (s.clients ++ [c]).Nodup := by
    simp [List.nodup_append, hnd, hc]
  obtain ⟨g1, g2, g3, g4, g5, g6, g7⟩ :=
    deliverFold_safe (onlineMsg (userOf c)) (s.clients ++ [c])
      { s with clients := s.clients ++ [c],
               rooms := roomsInsert s.rooms (userRoom (userOf c)) c,
               clientRooms := fun x =>
                 if x = c then s.clientRooms c ++ [userRoom (userOf c)]
                 else s.clientRooms x }
      hnd2 hcr hok
  have hconn : connect userOf c s
      = (s.clients ++ [c]).foldl (attemptSend (onlineMsg (userOf c)))
          { s with clients := s.clients ++ [c],
                   rooms := roomsInsert s.rooms (userRoom (userOf c)) c,
                   clientRooms := fun x =>
                     if x = c then s.clientRooms c ++ [userRoom (userOf c)]
                     else s.clientRooms x } := by
    rw [connect, h2]
    simp [broadcastMessage, onlineMsg, hcr]
  rw [hconn]
  refine ⟨g1, ?_, ?_, ?_, ?_⟩
  · rw [roomMembers, g2]
    have := membersOf_roomsInsert_self (userRoom (userOf c)) c s.rooms
    rw [this, if_neg (not_mem_membersOf c (userRoom (userOf c)) s.rooms hnomem)]
    simp
  · rw [g3]
    simp [hrooms0]
  · intro x hx
    rw [g7 x, if_pos hx]
  · intro x hx
    rw [g7 x, if_neg hx]

/-- C7: the claim's "and not to the newly registered connection itself" is
false on the code: the hub registers the client before `readPump` hands the
`user_online` broadcast to the hub loop, so the global fan-out includes the
new connection and its own queue receives its own presence event. -/
theorem C7_counterexample :
    (runOps c1User [.connect 1] initHub).queue 1 = [onlineMsg "u1"] ∧
      (runOps c1User [.connect 1] initHub).queue 1 ≠ [] :=
  ⟨rfl, fun h => List.cons_ne_nil _ _ h⟩

/-- Witness for C7's amended theorem: connecting client 2 to a hub that
already holds client 1 delivers `user_online` to both 1 and 2. -/
theorem C7_register_presence_witness :
    (runOps c1User [.connect 1] initHub).crashed = false ∧
    FreshClient (runOps c1User [.connect 1] initHub) 2 ∧
    (runOps c1User [.connect 1] initHub).clients.Nodup ∧
    (∀ x ∈ (runOps c1User [.connect 1] initHub).clients ++ [2],
      (runOps c1User [.connect 1] initHub).sendClosed x = false ∧
      ((runOps c1User [.connect 1] initHub).queue x).length < sendCap) ∧
    (connect c1User 2 (runOps c1User [.connect 1] initHub)).clients
      = (runOps c1User [.connect 1] initHub).clients ++ [2] ∧
    2 ∈ roomMembers (connect c1User 2 (runOps c1User [.connect 1] initHub))
        (userRoom (c1User 2)) ∧
    (∀ x ∈ (runOps c1User [.connect 1] initHub).clients ++ [2],
      (connect c1User 2 (runOps c1User [.connect 1] initHub)).queue x
        = (runOps c1User [.connect 1] initHub).queue x ++ [onlineMsg (c1User 2)]) := by
  have h := C7_register_presence c1User 2 (runOps c1User [.connect 1] initHub)
    (by decide) (by decide) (by decide) (by decide)
  exact ⟨by decide, by decide, by decide, by decide, h.1, h.2.1, h.2.2.2.1⟩

lemma conv_room_ne_empty (k : String) : ("conv:" ++ k) ≠ "" := by
  intro h
  have h2 : ("conv:" ++ k).length = 0 := by rw [h]; rfl
  rw [String.length_append] at h2
  simp at h2
  exact absurd h2.1 (by decide)

/-- C8: an inbound typing frame with a non-empty conversation id is
re-broadcast as a `typing` event to that conversation's room, carrying the
same conversation id, the sender's user id, and the frame's `is_typing`
value; the fan-out delivers to every current member of the room with no
sender filtering — the sending connection included when it is a member. -/
theorem C8_typing_rebroadcast (userOf : ClientId → String) (c : ClientId) (p : JVal)
    (k : String) (s : HubState) (hconv : convIdOf p = some k)
    (hcr : s.crashed = false) (hnd : (roomMembers s ("conv:" ++ k)).Nodup)
    (hok : ∀ x ∈ roomMembers s ("conv:" ++ k),
      s.sendClosed x = false ∧ (s.queue x).length < sendCap) :
    (∀ x ∈ roomMembers s ("conv:" ++ k),
      (handleFrame userOf c (some ⟨"typing", p⟩) s).queue x
        = s.queue x ++ [typingMsg k (userOf c) (isTypingOf p)]) ∧
    (c ∈ roomMembers s ("conv:" ++ k) →
      (handleFrame userOf c (some ⟨"typing", p⟩) s).queue c
        = s.queue c ++ [typingMsg k (userOf c) (isTypingOf p)]) ∧
    (∀ x, x ∉ roomMembers s ("conv:" ++ k) →
      (handleFrame userOf c (some ⟨"typing", p⟩) s).queue x = s.queue x) := by
  have hframe : handleFrame userOf c (some ⟨"typing", p⟩) s
      = broadcastMessage (typingMsg k (userOf c) (isTypingOf p)) s := by
    simp [handleFrame, hconv]
  have hb : broadcastMessage (typingMsg k (userOf c) (isTypingOf p)) s
      = (roomMembers s ("conv:" ++ k)).foldl
          (attemptSend (typingMsg k (userOf c) (isTypingOf p))) s := by
    simp [broadcastMessage, hcr, typingMsg, conv_room_ne_empty k]
  obtain ⟨g1, g2, g3, g4, g5, g6, g7⟩ :=
    deliverFold_safe (typingMsg k (userOf c) (isTypingOf p))
      (roomMembers s ("conv:" ++ k)) s hnd hcr hok
  rw [hframe, hb]
  exact ⟨fun x hx => by rw [g7 x, if_pos hx],
    fun hc => by rw [g7 c, if_pos hc],
    fun x hx => by rw [g7 x, if_neg hx]⟩

/-- Witness for C8: in a room with members 1 and 2, a typing frame sent by
member 1 is delivered to member 2 and echoed back to member 1 itself. -/
theorem C8_typing_rebroadcast_witness :
    (convIdOf typingFrame.fpayload = some "c") ∧
    c8State.crashed = false ∧
    (roomMembers c8State ("conv:" ++ "c")).Nodup ∧
    (∀ x ∈ roomMembers c8State ("conv:" ++ "c"),
      c8State.sendClosed x = false ∧ (c8State.queue x).length < sendCap) ∧
    1 ∈ roomMembers c8State ("conv:" ++ "c") ∧
    (handleFrame c1User 1 (some typingFrame) c8State).queue 1
      = c8State.queue 1 ++ [typingMsg "c" (c1User 1) (isTypingOf typingFrame.fpayload)] ∧
    (handleFrame c1User 1 (some typingFrame) c8State).queue 2
      = c8State.queue 2 ++ [typingMsg "c" (c1User 1) (isTypingOf typingFrame.fpayload)] := by
  have h := C8_typing_rebroadcast c1User 1 typingFrame.fpayload "c" c8State
    (by decide) rfl (by decide) (by decide)
  exact ⟨by decide, rfl, by decide, by decide, by decide,
    h.2.1 (by decide), h.1 2 (by decide)⟩

/-- C10: an inbound frame that fails JSON decoding, carries an unknown type
discriminator, or has a malformed payload (a `join` whose payload is not a
string, or a `typing`/`read` whose payload has no non-empty
`conversation_id` string) is silently ignored: the hub state — client set,
rooms, and every queue — is left exactly as it was and no reply is sent. -/
theorem C10_invalid_frames_ignored (userOf : ClientId → String) (c : ClientId)
    (f : Option InFrame) (s : HubState)
    (hig : f = none ∨ ∃ m, f = some m ∧
      (m.ftype ∉ (["ping", "join", "typing", "read"] : List String) ∨
       (m.ftype = "join" ∧ ∀ r, m.fpayload ≠ JVal.str r) ∨
       ((m.ftype = "typing" ∨ m.ftype = "read") ∧ convIdOf m.fpayload = none))) :
    handleFrame userOf c f s = s := by
  rcases hig with h | ⟨m, hf, hcase⟩
  · subst h
    rfl
  · subst hf
    rcases hcase with hunk | ⟨hj, hp⟩ | ⟨ht, hc⟩
    · simp only [List.mem_cons, List.mem_singleton, List.not_mem_nil, or_false] at hunk
      push_neg at hunk
      obtain ⟨h1, h2, h3, h4⟩ := hunk
      simp [handleFrame, h1, h2, h3, h4]
    · rcases hpay : m.fpayload with _ | b | n | r | xs | fs
      · simp [handleFrame, hj, hpay]
      · simp [handleFrame, hj, hpay]
      · simp [handleFrame, hj, hpay]
      · exact absurd hpay (hp r)
      · simp [handleFrame, hj, hpay]
      · simp [handleFrame, hj, hpay]
    · rcases ht with h | h <;> simp [handleFrame, h, hc]

/-- Witness for C10: a frame with the unknown type `frobnicate` leaves a
populated hub state untouched. -/
theorem C10_invalid_frames_ignored_witness :
    ((some badFrame : Option InFrame) = none ∨ ∃ m, (some badFrame : Option InFrame) = some m ∧
      (m.ftype ∉ (["ping", "join", "typing", "read"] : List String) ∨
       (m.ftype = "join" ∧ ∀ r, m.fpayload ≠ JVal.str r) ∨
       ((m.ftype = "typing" ∨ m.ftype = "read") ∧ convIdOf m.fpayload = none))) ∧
    handleFrame c1User 1 (some badFrame) c8State = c8State :=
  ⟨Or.inr ⟨badFrame, rfl, Or.inl (by decide)⟩,
   C10_invalid_frames_ignored c1User 1 (some badFrame) c8State
     (Or.inr ⟨badFrame, rfl, Or.inl (by decide)⟩)⟩

lemma closeInv_attemptSend (m : Message) (s : HubState) (c : ClientId)
    (h : CloseInv s) : CloseInv (attemptSend m s c) := by
  obtain ⟨hnd, hcc⟩ := h
  unfold attemptSend
  by_cases h1 : s.crashed
  · rw [if_pos h1]
    exact ⟨hnd, hcc⟩
  rw [if_neg h1]
  by_cases h2 : s.sendClosed c
  · rw [if_pos h2]
    exact ⟨hnd, hcc⟩
  rw [if_neg h2]
  by_cases h3 : (s.queue c).length < sendCap
  · rw [if_pos h3]
    exact ⟨hnd, hcc⟩
  · rw [if_neg h3]
    refine ⟨hnd.erase c, ?_⟩
    intro x
    by_cases hxc : x = c
    · subst hxc
      refine ⟨fun hx => by simp at hx, fun _ => ⟨?_, ?_⟩⟩
      · have h0 : s.closeCount x = 0 := (hcc x).1 (by simpa using h2)
        simp [h0]
      · simp [List.Nodup.mem_erase_iff hnd]
    · refine ⟨fun hx => ?_, fun hx => ⟨?_, ?_⟩⟩
      · simpa [hxc] using (hcc x).1 (by simpa [hxc] using hx)
      · simpa [hxc] using ((hcc x).2 (by simpa [hxc] using hx)).1
      · have hout := ((hcc x).2 (by simpa [hxc] using hx)).2
        intro hmem
        exact hout (List.mem_of_mem_erase hmem)

lemma closeInv_fold (m : Message) :
    ∀ (l : List ClientId) (s : HubState), CloseInv s →
      CloseInv (l.foldl (attemptSend m) s) := by
  intro l
  induction l with
  | nil => intro s h; exact h
  | cons c t ih =>
    intro s h
    rw [List.foldl_cons]
    exact ih _ (closeInv_attemptSend m s c h)

lemma closeInv_broadcast (m : Message) (s : HubState) (h : CloseInv s) :
    CloseInv (broadcastMessage m s) := by
  unfold broadcastMessage
  by_cases h1 : s.crashed
  · simpa [h1] using h
  by_cases h2 : m.msgRoom = "" <;> simp only [h1, h2, if_true, if_false] <;>
    exact closeInv_fold m _ s h

lemma closeInv_hubRegister (c : ClientId) (s : HubState) (h : CloseInv s)
    (hfr : c ∉ s.clients ∧ s.sendClosed c = false) : CloseInv (hubRegister c s) := by
  obtain ⟨hnd, hcc⟩ := h
  unfold hubRegister
  by_cases h1 : s.crashed
  · rw [if_pos h1]
    exact ⟨hnd, hcc⟩
  · rw [if_neg h1, if_neg hfr.1]
    refine ⟨by simp [List.nodup_append, hnd, hfr.1], ?_⟩
    intro x
    refine ⟨(hcc x).1, fun hx => ⟨((hcc x).2 hx).1, ?_⟩⟩
    have hout := ((hcc x).2 hx).2
    intro hmem
    rcases List.mem_append.mp hmem with hm | hm
    · exact hout hm
    · have hxc : x = c := by simpa using hm
      rw [hxc] at hx
      rw [hfr.2] at hx
      cases hx

lemma closeInv_joinRoom (c : ClientId) (r : String) (s : HubState) (h : CloseInv s) :
    CloseInv (joinRoom c r s) := by
  unfold joinRoom
  by_cases h1 : s.crashed <;> simp only [h1, if_true, if_false] <;> exact h

lemma closeInv_unregister (c : ClientId) (s : HubState) (h : CloseInv s) :
    CloseInv (unregister c s) := by
  obtain ⟨hnd, hcc⟩ := h
  unfold unregister
  by_cases h1 : s.crashed
  · rw [if_pos h1]
    exact ⟨hnd, hcc⟩
  rw [if_neg h1]
  by_cases h2 : c ∈ s.clients
  · rw [if_pos h2]
    refine ⟨hnd.erase c, ?_⟩
    intro x
    by_cases hxc : x = c
    · subst hxc
      refine ⟨fun hx => by simp at hx, fun _ => ⟨?_, ?_⟩⟩
      · have hopen : s.sendClosed x = false := by
          by_cases hq : s.sendClosed x
          · exact absurd h2 ((hcc x).2 hq).2
          · simpa using hq
        have h0 : s.closeCount x = 0 := (hcc x).1 hopen
        simp [h0]
      · simp [List.Nodup.mem_erase_iff hnd]
    · refine ⟨fun hx => ?_, fun hx => ⟨?_, ?_⟩⟩
      · simpa [hxc] using (hcc x).1 (by simpa [hxc] using hx)
      · simpa [hxc] using ((hcc x).2 (by simpa [hxc] using hx)).1
      · have hout := ((hcc x).2 (by simpa [hxc] using hx)).2
        intro hmem
        exact hout (List.mem_of_mem_erase hmem)
  · rw [if_neg h2]
    exact ⟨hnd, hcc⟩

lemma closeInv_enqueueSelfOrDrop (c : ClientId) (m : Message) (s : HubState)
    (h : CloseInv s) : CloseInv (enqueueSelfOrDrop c m s) := by
  unfold enqueueSelfOrDrop
  by_cases h1 : s.crashed
  · simpa [h1] using h
  by_cases h2 : s.sendClosed c
  · simp only [h1, h2, if_true, if_false]
    exact h
  by_cases h3 : (s.queue c).length < sendCap <;>
    simp only [h1, h2, h3, if_true, if_false] <;> exact h

lemma closeInv_handleFrame (userOf : ClientId → String) (c : ClientId)
    (f : Option InFrame) (s : HubState) (h : CloseInv s) :
    CloseInv (handleFrame userOf c f s) := by
  unfold handleFrame
  rcases f with _ | m
  · exact h
  by_cases h1 : m.ftype = "ping"
  · simp only [h1, if_true]
    exact closeInv_enqueueSelfOrDrop c pongMsg s h
  by_cases h2 : m.ftype = "join"
  · simp only [h1, h2, if_true, if_false]
    rcases m.fpayload with _ | b | n | r | xs | fs
    · exact h
    · exact h
    · exact h
    · exact closeInv_joinRoom c r s h
    · exact h
    · exact h
  by_cases h3 : m.ftype = "typing"
  · simp only [h1, h2, h3, if_true, if_false]
    rcases convIdOf m.fpayload with _ | k
    · exact h
    · exact closeInv_broadcast _ s h
  by_cases h4 : m.ftype = "read"
  · simp only [h1, h2, h3, h4, if_true, if_false]
    rcases convIdOf m.fpayload with _ | k
    · exact h
    · exact closeInv_broadcast _ s h
  · simp only [h1, h2, h3, h4, if_false]
    exact h

lemma closeInv_run (userOf : ClientId → String) :
    ∀ (ops : List HubOp) (s : HubState), CloseInv s →
      freshRun userOf s ops = true → CloseInv (runOps userOf ops s) := by
  intro ops
  induction ops with
  | nil => intro s h _; exact h
  | cons op rest ih =>
    intro s h hfr
    unfold freshRun at hfr
    rw [Bool.and_eq_true] at hfr
    obtain ⟨hop, hrest⟩ := hfr
    have hnext : CloseInv (hubStep userOf s op) := by
      cases op with
      | connect c =>
        have hc : c ∉ s.clients ∧ s.sendClosed c = false := by
          simpa using hop
        exact closeInv_broadcast _ _
          (closeInv_joinRoom c _ _ (closeInv_hubRegister c s h hc))
      | disconnect c => exact closeInv_broadcast _ _ (closeInv_unregister c s h)
      | frame c f => exact closeInv_handleFrame userOf c f s h
      | send m => exact closeInv_broadcast m s h
      | drain c =>
        unfold hubStep drain
        by_cases h1 : s.crashed <;> simp only [h1, if_true, if_false] <;> exact h
    have : runOps userOf (op :: rest) s = runOps userOf rest (hubStep userOf s op) := by
      simp [runOps]
    rw [this]
    exact ih _ hnext hrest

lemma closeInv_init : CloseInv initHub := by
  refine ⟨List.nodup_nil, ?_⟩
  intro x
  exact ⟨fun _ => rfl, fun hx => by simp [initHub] at hx⟩

/-- C9: deregistering a connection that is no longer in the global client
set is a no-op (the hub state is returned unchanged — client set, rooms,
queues, everything); and along any run whose connects present fresh
clients, each connection's send queue is closed at most once. -/
theorem C9_duplicate_deregistration (userOf : ClientId → String) (ops : List HubOp)
    (c : ClientId) (s : HubState) (hdup : c ∉ s.clients)
    (hrun : freshRun userOf initHub ops = true) :
    unregister c s = s ∧ (runOps userOf ops initHub).closeCount c ≤ 1 := by
  constructor
  · unfold unregister
    by_cases h1 : s.crashed <;> simp [h1, hdup]
  · obtain ⟨hnd, hcc⟩ := closeInv_run userOf ops initHub closeInv_init hrun
    by_cases hx : (runOps userOf ops initHub).sendClosed c
    · rw [((hcc c).2 hx).1]
    · rw [(hcc c).1 (by simpa using hx)]
      exact Nat.zero_le 1

/-- Witness for C9: after connect and disconnect of client 1, a second
deregistration returns the state unchanged, and over the whole run the
queue of client 1 was closed exactly once (count ≤ 1). -/
theorem C9_duplicate_deregistration_witness :
    (1 ∉ (runOps c1User [.connect 1, .disconnect 1] initHub).clients) ∧
    freshRun c1User initHub c9Ops = true ∧
    unregister 1 (runOps c1User [.connect 1, .disconnect 1] initHub)
      = runOps c1User [.connect 1, .disconnect 1] initHub ∧
    (runOps c1User c9Ops initHub).closeCount 1 ≤ 1 := by
  have h := C9_duplicate_deregistration c1User c9Ops 1
    (runOps c1User [.connect 1, .disconnect 1] initHub) (by decide) (by decide)
  exact ⟨by decide, by decide, h.1, h.2⟩

lemma membersOf_nodup (rooms : List (String × List ClientId))
    (hm : ∀ e ∈ rooms, e.2.Nodup) (r : String) : (membersOf rooms r).Nodup := by
  induction rooms with
  | nil => simp [membersOf]
  | cons e rest ih =>
    obtain ⟨r', ms⟩ := e
    by_cases h : r' = r
    · subst h
      simpa [membersOf] using hm (r', ms) (by simp)
    · simp only [membersOf, h, if_false]
      exact ih (fun e he => hm e (List.mem_cons_of_mem _ he))

lemma roomsInsert_nodup (rooms : List (String × List ClientId)) (r : String)
    (c : ClientId) (hm : ∀ e ∈ rooms, e.2.Nodup) :
    ∀ e ∈ roomsInsert rooms r c, e.2.Nodup := by
  induction rooms with
  | nil =>
    intro e he
    simp [roomsInsert] at he
    simp [he]
  | cons e0 rest ih =>
    obtain ⟨r', ms⟩ := e0
    intro e he
    by_cases h : r' = r
    · subst h
      simp only [roomsInsert, if_pos rfl] at he
      rcases List.mem_cons.mp he with h1 | h1
      · subst h1
        by_cases hcm : c ∈ ms
        · simpa [hcm] using hm (r', ms) (by simp)
        · have := hm (r', ms) (by simp)
          simp only [hcm, if_false]
          simpa [List.nodup_append, hcm] using this
      · exact hm e (List.mem_cons_of_mem _ h1)
    · simp only [roomsInsert, if_neg h] at he
      rcases List.mem_cons.mp he with h1 | h1
      · subst h1
        exact hm (r', ms) (by simp)
      · exact ih (fun e he => hm e (List.mem_cons_of_mem _ he)) e h1

lemma membersOf_removeFromRooms (c : ClientId) (rs : List String) :
    ∀ (rooms : List (String × List ClientId)) (q : String),
      membersOf (removeFromRooms c rs rooms) q
        = if q ∈ rs then (membersOf rooms q).erase c else membersOf rooms q := by
  intro rooms
  induction rooms with
  | nil =>
    intro q
    simp [removeFromRooms, membersOf]
  | cons e rest ih =>
    obtain ⟨r', ms⟩ := e
    intro q
    have hmap : removeFromRooms c rs ((r', ms) :: rest)
        = (if r' ∈ rs then (r', ms.erase c) else (r', ms)) :: removeFromRooms c rs rest := by
      simp [removeFromRooms]
    rw [hmap]
    by_cases hrs : r' ∈ rs
    · rw [if_pos hrs]
      by_cases h : r' = q
      · subst h
        simp [membersOf, hrs]
      · simp only [membersOf, h, if_false]
        exact ih q
    · rw [if_neg hrs]
      by_cases h : r' = q
      · subst h
        simp [membersOf, hrs]
      · simp only [membersOf, h, if_false]
        exact ih q

lemma removeFromRooms_nodup (c : ClientId) (rs : List String)
    (rooms : List (String × List ClientId)) (hm : ∀ e ∈ rooms, e.2.Nodup) :
    ∀ e ∈ removeFromRooms c rs rooms, e.2.Nodup := by
  intro e he
  unfold removeFromRooms at he
  obtain ⟨e0, he0, heq⟩ := List.mem_map.mp he
  by_cases h : e0.1 ∈ rs
  · rw [if_pos h] at heq
    rw [← heq]
    exact (hm e0 he0).erase c
  · rw [if_neg h] at heq
    rw [← heq]
    exact hm e0 he0

lemma regInv_broadcast (userOf : ClientId → String) (m : Message) (s : HubState)
    (h : RegInv userOf s) (hsafe : SendSafe s m) :
    RegInv userOf (broadcastMessage m s) := by
  have hcr := h.crashedFalse
  have hbm : broadcastMessage m s = (fanTargets s m).foldl (attemptSend m) s := by
    unfold broadcastMessage fanTargets
    by_cases h2 : m.msgRoom = "" <;> simp [hcr, h2]
  have hnd : (fanTargets s m).Nodup := by
    unfold fanTargets
    by_cases h2 : m.msgRoom = ""
    · rw [if_pos h2]
      exact h.clientsNodup
    · rw [if_neg h2]
      exact membersOf_nodup s.rooms h.membersNodup m.msgRoom
  have hok : ∀ c ∈ fanTargets s m,
      s.sendClosed c = false ∧ (s.queue c).length < sendCap := by
    intro c hc
    refine ⟨?_, hsafe c hc⟩
    have hcl : c ∈ s.clients := by
      unfold fanTargets at hc
      by_cases h2 : m.msgRoom = ""
      · rw [if_pos h2] at hc
        exact hc
      · rw [if_neg h2] at hc
        exact ((h.memIff c m.msgRoom).mp hc).1
    by_cases hq : s.sendClosed c
    · exact absurd hcl (h.closedDead c hq)
    · simpa using hq
  obtain ⟨g1, g2, g3, g4, g5, g6, g7⟩ :=
    deliverFold_safe m (fanTargets s m) s hnd hcr hok
  rw [hbm]
  exact
    { crashedFalse := g6,
      clientsNodup := by rw [g1]; exact h.clientsNodup,
      membersNodup := by rw [g2]; exact h.membersNodup,
      memIff := by
        intro c r
        rw [roomMembers, g2, g1, g3]
        exact h.memIff c r,
      roomsOwn := by
        intro c hc
        rw [g3]
        exact h.roomsOwn c (g1 ▸ hc),
      closedDead := by
        intro c hcq
        rw [g1]
        exact h.closedDead c (by rw [← g4]; exact hcq) }

lemma regInv_registerJoin (userOf : ClientId → String) (c : ClientId) (s : HubState)
    (h : RegInv userOf s) (hf : FreshClient s c) :
    RegInv userOf (joinRoom c (userRoom (userOf c)) (hubRegister c s)) := by
  obtain ⟨hc, hclosed, hrooms0, hcount, hnomem⟩ := hf
  have hcr := h.crashedFalse
  have h1 : hubRegister c s = { s with clients := s.clients ++ [c] } := by
    simp [hubRegister, hcr, hc]
  have h2 : joinRoom c (userRoom (userOf c)) (hubRegister c s)
      = { s with clients := s.clients ++ [c],
                 rooms := roomsInsert s.rooms (userRoom (userOf c)) c,
                 clientRooms := fun x =>
                   if x = c then s.clientRooms c ++ [userRoom (userOf c)]
                   else s.clientRooms x } := by
    rw [h1]
    simp [joinRoom, hcr, hrooms0]
  rw [h2]
  have hfreshmem : ∀ q, c ∉ membersOf s.rooms q :=
    fun q => not_mem_membersOf c q s.rooms hnomem
  refine { crashedFalse := hcr, clientsNodup := ?_, membersNodup := ?_,
           memIff := ?_, roomsOwn := ?_, closedDead := ?_ }
  · simp [List.nodup_append, h.clientsNodup, hc]
  · exact roomsInsert_nodup s.rooms _ c h.membersNodup
  · intro x q
    show x ∈ membersOf (roomsInsert s.rooms (userRoom (userOf c)) c) q ↔ _
    by_cases hqr : q = userRoom (userOf c)
    · subst hqr
      rw [membersOf_roomsInsert_self, if_neg (hfreshmem _)]
      by_cases hxc : x = c
      · subst hxc
        simp [hrooms0]
      · have e1 : (x ∈ membersOf s.rooms (userRoom (userOf c)) ++ [c])
            ↔ x ∈ membersOf s.rooms (userRoom (userOf c)) := by simp [hxc]
        have hmiff := h.memIff x (userRoom (userOf c))
        unfold roomMembers at hmiff
        rw [e1, hmiff]
        simp [hxc]
    · rw [show membersOf (roomsInsert s.rooms (userRoom (userOf c)) c) q
            = membersOf s.rooms q from
          membersOf_roomsInsert_ne (userRoom (userOf c)) q c hqr s.rooms]
      by_cases hxc : x = c
      · subst hxc
        simp [hfreshmem q, hrooms0, hqr]
      · have hmiff := h.memIff x q
        unfold roomMembers at hmiff
        rw [hmiff]
        simp [hxc]
  · intro x hx
    by_cases hxc : x = c
    · subst hxc
      simp [hrooms0]
    · have hx' : x ∈ s.clients := by
        rcases List.mem_append.mp hx with hm | hm
        · exact hm
        · exact absurd (by simpa using hm) hxc
      simpa [hxc] using h.roomsOwn x hx'
  · intro x hx
    intro hmem
    rcases List.mem_append.mp hmem with hm | hm
    · exact h.closedDead x hx hm
    · have hxc : x = c := by simpa using hm
      rw [hxc] at hx
      rw [hclosed] at hx
      cases hx

lemma regInv_unregister (userOf : ClientId → String) (c : ClientId) (s : HubState)
    (h : RegInv userOf s) : RegInv userOf (unregister c s) := by
  have hcr := h.crashedFalse
  unfold unregister
  rw [if_neg (by simp [hcr])]
  by_cases hcm : c ∈ s.clients
  · rw [if_pos hcm]
    refine { crashedFalse := hcr, clientsNodup := h.clientsNodup.erase c,
             membersNodup := removeFromRooms_nodup c _ s.rooms h.membersNodup,
             memIff := ?_, roomsOwn := ?_, closedDead := ?_ }
    · intro x q
      show x ∈ membersOf (removeFromRooms c (s.clientRooms c) s.rooms) q ↔ _
      rw [membersOf_removeFromRooms]
      by_cases hxc : x = c
      · subst hxc
        constructor
        · intro hx
          by_cases hq : q ∈ s.clientRooms x
          · rw [if_pos hq] at hx
            exact absurd hx
              (by simp [List.Nodup.mem_erase_iff
                    (membersOf_nodup s.rooms h.membersNodup q)])
          · rw [if_neg hq] at hx
            exact absurd ((h.memIff x q).mp hx).2 hq
        · rintro ⟨hmem, _⟩
          exact absurd hmem
            (by simp [List.Nodup.mem_erase_iff h.clientsNodup])
      · have e1 : (x ∈ if q ∈ s.clientRooms c
              then (membersOf s.rooms q).erase c else membersOf s.rooms q)
            ↔ x ∈ membersOf s.rooms q := by
          by_cases hq : q ∈ s.clientRooms c
          · rw [if_pos hq]
            exact List.mem_erase_of_ne hxc
          · rw [if_neg hq]
        have hmiff := h.memIff x q
        unfold roomMembers at hmiff
        rw [e1, hmiff]
        simp [List.mem_erase_of_ne hxc]
    · intro x hx
      exact h.roomsOwn x (List.mem_of_mem_erase hx)
    · intro x hx
      by_cases hxc : x = c
      · subst hxc
        simp [List.Nodup.mem_erase_iff h.clientsNodup]
      · have hx' : s.sendClosed x = true := by simpa [hxc] using hx
        intro hmem
        exact h.closedDead x hx' (List.mem_of_mem_erase hmem)
  · rw [if_neg hcm]
    exact h

lemma regInv_drain (userOf : ClientId → String) (c : ClientId) (s : HubState)
    (h : RegInv userOf s) : RegInv userOf (drain c s) := by
  unfold drain
  rw [if_neg (by simp [h.crashedFalse])]
  exact { crashedFalse := h.crashedFalse, clientsNodup := h.clientsNodup,
          membersNodup := h.membersNodup, memIff := h.memIff,
          roomsOwn := h.roomsOwn, closedDead := h.closedDead }

lemma regInv_connect (userOf : ClientId → String) (c : ClientId) (s : HubState)
    (h : RegInv userOf s) (hf : FreshClient s c)
    (hsafe : SendSafe (joinRoom c (userRoom (userOf c)) (hubRegister c s))
      (onlineMsg (userOf c))) :
    RegInv userOf (connect userOf c s) :=
  regInv_broadcast userOf (onlineMsg (userOf c)) _
    (regInv_registerJoin userOf c s h hf) hsafe

lemma regInv_init (userOf : ClientId → String) : RegInv userOf initHub := by
  refine { crashedFalse := rfl, clientsNodup := List.nodup_nil,
           membersNodup := ?_, memIff := ?_, roomsOwn := ?_, closedDead := ?_ }
  · intro e he
    simp [initHub] at he
  · intro c r
    simp [roomMembers, membersOf, initHub]
  · intro c hc
    simp [initHub] at hc
  · intro c hcq
    simp [initHub] at hcq

lemma regInv_run (userOf : ClientId → String) :
    ∀ (ops : List HubOp) (s : HubState), RegInv userOf s →
      noDropRun userOf s ops = true → RegInv userOf (runOps userOf ops s) := by
  intro ops
  induction ops with
  | nil => intro s h _; exact h
  | cons op rest ih =>
    intro s h hrun
    unfold noDropRun at hrun
    rw [Bool.and_eq_true] at hrun
    obtain ⟨hop, hrest⟩ := hrun
    have hnext : RegInv userOf (hubStep userOf s op) := by
      cases op with
      | connect c =>
        rw [Bool.and_eq_true] at hop
        exact regInv_connect userOf c s h
          (of_decide_eq_true hop.1) (of_decide_eq_true hop.2)
      | disconnect c =>
        exact regInv_broadcast userOf _ _
          (regInv_unregister userOf c s h) (of_decide_eq_true hop)
      | frame c f => simp at hop
      | send m => exact regInv_broadcast userOf m s h (of_decide_eq_true hop)
      | drain c => exact regInv_drain userOf c s h
    have heq : runOps userOf (op :: rest) s = runOps userOf rest (hubStep userOf s op) := by
      simp [runOps]
    rw [heq]
    exact ih _ hnext hrest

lemma userRoom_inj {a b : String} (h : userRoom a = userRoom b) : a = b := by
  unfold userRoom at h
  have h2 := congrArg String.data h
  rw [String.data_append, String.data_append] at h2
  exact String.ext (List.append_cancel_left h2)

lemma regInv_registryMatches (userOf : ClientId → String) (s : HubState)
    (h : RegInv userOf s) : RegistryMatches userOf s := by
  intro u c
  rw [roomMembers] at *
  rw [show (c ∈ membersOf s.rooms (userRoom u))
        ↔ (c ∈ s.clients ∧ userRoom u ∈ s.clientRooms c) from
      h.memIff c (userRoom u)]
  constructor
  · rintro ⟨hc, hr⟩
    refine ⟨hc, ?_⟩
    rw [h.roomsOwn c hc] at hr
    have : userRoom u = userRoom (userOf c) := by simpa using hr
    exact (userRoom_inj this).symm
  · rintro ⟨hc, hu⟩
    refine ⟨hc, ?_⟩
    rw [h.roomsOwn c hc, hu]
    simp

lemma regInv_subset (userOf : ClientId → String) (s : HubState)
    (h : RegInv userOf s) : ClientRoomsSubset s := by
  intro c hc r hr
  exact (h.memIff c r).mpr ⟨hc, hr⟩

/-- C1 (amended): along register/deregister/fan-out runs in which no fan-out
meets a full queue, the registry's per-user room membership is exactly the
set of registered connections of that user, and a registered connection's
own room set is a subset of the registry's view; but a fan-out never removes
anyone from any room, so a member force-dropped for backpressure leaves the
global client set while all of its room memberships stay behind. -/
theorem C1_registry (userOf : ClientId → String) (ops : List HubOp)
    (hrun : noDropRun userOf initHub ops = true) :
    RegistryMatches userOf (runOps userOf ops initHub) ∧
    ClientRoomsSubset (runOps userOf ops initHub) ∧
    (∀ (m : Message) (s : HubState), (broadcastMessage m s).rooms = s.rooms ∧
      (broadcastMessage m s).clientRooms = s.clientRooms) := by
  have h := regInv_run userOf ops initHub (regInv_init userOf) hrun
  exact ⟨regInv_registryMatches userOf _ h, regInv_subset userOf _ h,
    fun m s => broadcastMessage_rooms m s⟩

/-- C1: the claim as stated is false: connect a client and fan 256 envelopes
out to its user room; the last fan-out finds the queue full and force-drops
the client from the global set, but the client is still a member of its
per-user room, so the registry no longer matches the registered set. -/
theorem C1_counterexample :
    ¬ RegistryMatches c1User (runOps c1User c1Ops initHub) := by
  intro h
  have h2 := (h "u1" 1).mp (by decide)
  exact absurd h2.1 (by decide)

/-- Witness for C1's amended theorem on a concrete no-overflow run. -/
theorem C1_registry_witness :
    noDropRun c1User initHub c1SafeOps = true ∧
    RegistryMatches c1User (runOps c1User c1SafeOps initHub) ∧
    ClientRoomsSubset (runOps c1User c1SafeOps initHub) := by
  have h := C1_registry c1User c1SafeOps (by decide)
  exact ⟨by decide, h.1, h.2.1⟩

end YandasWS
